import Mathlib

/-!
Verification of the shared DuckDB-WASM manager of sql-workbench-embedded
(`src/duckdb-manager.ts`).

The manager is single-threaded, cooperative JavaScript: "concurrency" means
interleaving of asynchronous callers at `await` suspension points.  We embed
the manager as a small-step state machine.  The manager's mutable fields
(`db`, `connection`, `initPromise`, `config`, `registeredFiles`,
`duckdbModule`, `initQueriesExecuted`, `initQueriesPromise`, `initQueries`)
become the record `MState`.  Every in-flight public call is a `Task`, a
program counter that records at which suspension point the call currently
sits.  One scheduler step picks a task index and an outcome for the awaited
external operation (success, or failure with a message) and runs the
synchronous code segment of that task up to its next `await`, exactly as the
event loop does.  Promises are modelled by identifiers: a task awaiting an
unresolved identifier is not runnable; the `resolved` association list maps
settled identifiers to their outcome.

An important transcription detail (faithful to the source): `doInitialize`
assigns `this.db` *before* `await this.db.instantiate(...)` and
`await this.db.connect()` complete, and its catch block resets only
`this.initPromise`.  Likewise, the async IIFE of `executeInitQueries`
submits the first statement synchronously; if `this.connection` is null at
that point the body throws synchronously, the catch clears
`this.initQueriesPromise`, and the *subsequent* assignment stores the
already-rejected promise back into `this.initQueriesPromise`.
-/

set_option maxHeartbeats 1000000

namespace SWEmbed

/-- Outcome of an awaited external operation: fulfilled, or rejected with a
message. -/
inductive TRes where
  | ok
  | err (msg : String)
deriving DecidableEq, Repr

/-- Observable interactions with the engine / environment, in the order they
are issued. -/
inductive Event where
  | startInit
  | importAttempt
  | cdnImport (url : String)
  | workerFetch
  | engineInstantiate
  | connOpen
  | connQuery (sql : String)
  | registerFileURL (name url : String)
  | connClose
  | dbTerminate
deriving DecidableEq, Repr

/-- `DuckDBManagerConfig` (duckdb-manager.ts lines 7-10). -/
structure DuckDBManagerConfig where
  version : String
  cdn : String
deriving DecidableEq, Repr

/-- Constructor defaults (duckdb-manager.ts lines 27-32). -/
def defaultConfig : DuckDBManagerConfig :=
  { version := "1.31.1-dev1.0",
    cdn := "https://cdn.jsdelivr.net/npm/@duckdb/duckdb-wasm" }

/-- The remote import URL built in `loadDuckDBModule` (line 98): the base is a
hard-coded literal; only `config.version` is interpolated. -/
def cdnUrl (cfg : DuckDBManagerConfig) : String :=
  "https://cdn.jsdelivr.net/npm/@duckdb/duckdb-wasm@" ++ cfg.version ++ "/+esm"

/-- The manager's mutable fields (duckdb-manager.ts lines 17-25).  Nullable
object references become `Bool` (present or not); promise-valued fields hold
promise identifiers. -/
structure MState where
  db : Bool
  connection : Bool
  initPromise : Option Nat
  config : DuckDBManagerConfig
  registeredFiles : List String
  duckdbModule : Bool
  initQueriesExecuted : Bool
  initQueriesPromise : Option Nat
  initQueries : List String
deriving DecidableEq, Repr

/-- A freshly constructed manager. -/
def MState.fresh : MState :=
  { db := false,
    connection := false,
    initPromise := none,
    config := defaultConfig,
    registeredFiles := [],
    duckdbModule := false,
    initQueriesExecuted := false,
    initQueriesPromise := none,
    initQueries := [] }

/-- Suspension points of a caller of `initialize()` (lines 60-69). -/
inductive IPh where
  | iStart
  | iWait (p : Nat)
deriving DecidableEq, Repr

/-- Suspension points inside `doInitialize` (lines 122-170): awaiting the
module load, `selectBundle`, the worker fetch (together with `blob()`),
`instantiate`, and `connect`. -/
inductive DPC where
  | loadMod
  | loadCdn
  | selectBundle
  | fetchWorker
  | instantiate
  | connect
deriving DecidableEq, Repr

/-- Suspension points of `query` (lines 245-283). -/
inductive QPh where
  | qInit
  | qInitWait (p : Nat)
  | qSetup
  | qSetupWait (p : Nat)
  | qSubmit
  | qAwait
deriving DecidableEq, Repr

/-- Suspension points of `registerFile` (lines 221-240). -/
inductive RPh where
  | rInit
  | rInitWait (p : Nat)
  | rBody
  | rAwait
deriving DecidableEq, Repr

/-- Suspension points of `close` (lines 288-306). -/
inductive CPh where
  | cStart
  | cAwaitedClose
  | cAwaitedTerm
deriving DecidableEq, Repr

/-- An in-flight caller (or spawned internal coroutine), as a program
counter. `setupRun p k` is the async IIFE of `executeInitQueries` awaiting
the result of statement `k`; `fin r` is a finished call with its outcome. -/
inductive Task where
  | initCaller (ph : IPh)
  | doInit (p : Nat) (pc : DPC)
  | setupRun (p : Nat) (k : Nat)
  | queryCall (sql : String) (ph : QPh)
  | registerCall (name url : String) (ph : RPh)
  | closeCall (ph : CPh)
  | configQ (qs : List String)
  | configC (v cdn : Option String)
  | fin (r : TRes)
deriving DecidableEq, Repr

/-- Global configuration of a run: manager state, the `window.duckdb` global,
in-flight tasks, a fresh-promise counter, settled promises, and the event
log. -/
structure Config where
  st : MState
  windowDuckdb : Bool
  tasks : List Task
  nextP : Nat
  resolved : List (Nat × TRes)
  events : List Event
deriving DecidableEq, Repr

def Config.setTask (c : Config) (i : Nat) (t : Task) : Config :=
  { c with tasks := c.tasks.set i t }

def Config.withSt (c : Config) (s : MState) : Config := { c with st := s }

def Config.emit (c : Config) (e : Event) : Config :=
  { c with events := c.events ++ [e] }

def Config.resolveP (c : Config) (p : Nat) (r : TRes) : Config :=
  { c with resolved := (p, r) :: c.resolved }

def Config.setTasks (c : Config) (ts : List Task) : Config := { c with tasks := ts }

def Config.bumpP (c : Config) : Config := { c with nextP := c.nextP + 1 }

def Config.setWindow (c : Config) : Config := { c with windowDuckdb := true }

/-- The synchronous body of `initialize()` (lines 60-69): return at once if
`this.db` is set, join a pending promise, or store a fresh promise and start
`doInitialize`. -/
def initStep (c : Config) (i : Nat) (onDb : Task) (onWait : Nat → Task) : Config :=
  if c.st.db then c.setTask i onDb
  else
    match c.st.initPromise with
    | some p => c.setTask i (onWait p)
    | none =>
      let p := c.nextP
      ((((c.withSt { c.st with initPromise := some p }).bumpP).emit .startInit).setTasks
        ((c.tasks.set i (onWait p)) ++ [.doInit p .loadMod]))

/-- The catch block of `doInitialize` (lines 160-169): clear `initPromise`
(but nothing else) and reject the stored promise with a wrapping message. -/
def doInitFail (c : Config) (i p : Nat) (m : String) : Config :=
  let msg := "Failed to initialize DuckDB: " ++ m
  (((c.withSt { c.st with initPromise := none }).resolveP p (.err msg)).setTask i
    (.fin (.err msg)))

/-- One segment of `doInitialize` (lines 122-170), including the fallback
chain of `loadDuckDBModule` (lines 74-120).  Note that `this.db` is assigned
(line 151) in the segment that *issues* `instantiate`, before that await
settles. -/
def stepDoInit (c : Config) (i p : Nat) (pc : DPC) (r : TRes) : Config :=
  match pc with
  | .loadMod =>
    if c.st.duckdbModule then c.setTask i (.doInit p .selectBundle)
    else if c.windowDuckdb then
      (c.withSt { c.st with duckdbModule := true }).setTask i (.doInit p .selectBundle)
    else
      match r with
      | .ok =>
        (((c.withSt { c.st with duckdbModule := true }).emit .importAttempt).setTask i
          (.doInit p .selectBundle))
      | .err _ => (c.emit .importAttempt).setTask i (.doInit p .loadCdn)
  | .loadCdn =>
    match r with
    | .ok =>
      ((((c.withSt { c.st with duckdbModule := true }).setWindow).emit
        (.cdnImport (cdnUrl c.st.config))).setTask i (.doInit p .selectBundle))
    | .err m =>
      doInitFail (c.emit (.cdnImport (cdnUrl c.st.config))) i p
        ("Failed to load DuckDB: " ++ m)
  | .selectBundle =>
    match r with
    | .ok => c.setTask i (.doInit p .fetchWorker)
    | .err m => doInitFail c i p m
  | .fetchWorker =>
    match r with
    | .ok => (c.emit .workerFetch).setTask i (.doInit p .instantiate)
    | .err m => doInitFail (c.emit .workerFetch) i p m
  | .instantiate =>
    match r with
    | .ok =>
      (((c.withSt { c.st with db := true }).emit .engineInstantiate).setTask i
        (.doInit p .connect))
    | .err m =>
      doInitFail ((c.withSt { c.st with db := true }).emit .engineInstantiate) i p m
  | .connect =>
    match r with
    | .ok =>
      ((((c.withSt { c.st with connection := true }).emit .connOpen).resolveP p .ok).setTask i
        (.fin .ok))
    | .err m => doInitFail c i p m

/-- The catch block of the `executeInitQueries` IIFE at an asynchronous
statement failure (lines 206-212): clear `initQueriesPromise` and reject with
a wrapping message. -/
def setupFail (c : Config) (i p : Nat) (m : String) : Config :=
  let msg := "Initialization query failed: " ++ m
  (((c.withSt { c.st with initQueriesPromise := none }).resolveP p (.err msg)).setTask i
    (.fin (.err msg)))

/-- Resumption of the `executeInitQueries` IIFE after statement `k` settles
(lines 192-213).  The loop re-reads `this.initQueries` on every iteration.
On full success it sets `initQueriesExecuted` and fulfils the promise — the
fulfilled promise stays stored in `initQueriesPromise`. -/
def stepSetup (c : Config) (i p k : Nat) (r : TRes) : Config :=
  match r with
  | .err m => setupFail c i p m
  | .ok =>
    let qs := c.st.initQueries
    if k + 1 < qs.length then
      if c.st.connection then
        (c.emit (.connQuery (qs.getD (k + 1) ""))).setTask i (.setupRun p (k + 1))
      else setupFail c i p "connection is null"
    else
      (((c.withSt { c.st with initQueriesExecuted := true }).resolveP p .ok).setTask i
        (.fin .ok))

/-- One segment of `query` (lines 245-283).  `qSetup` is the synchronous body
of `executeInitQueries` (lines 175-216); when it has to start the IIFE it
submits statement 0 synchronously, and if `this.connection` is null the IIFE
throws synchronously: its catch clears the promise field but the following
assignment stores the rejected promise there (the clobber described in the
file comment). -/
def stepQuery (c : Config) (i : Nat) (sql : String) (ph : QPh) (r : TRes) : Config :=
  match ph with
  | .qInit => initStep c i (.queryCall sql .qSetup) (fun p => .queryCall sql (.qInitWait p))
  | .qInitWait p =>
    match c.resolved.lookup p with
    | none => c
    | some .ok => c.setTask i (.queryCall sql .qSetup)
    | some (.err m) => c.setTask i (.fin (.err m))
  | .qSetup =>
    if c.st.initQueriesExecuted then c.setTask i (.queryCall sql .qSubmit)
    else
      match c.st.initQueriesPromise with
      | some p => c.setTask i (.queryCall sql (.qSetupWait p))
      | none =>
        if c.st.initQueries.length = 0 then
          ((c.withSt { c.st with initQueriesExecuted := true }).setTask i
            (.queryCall sql .qSubmit))
        else
          let p := c.nextP
          if c.st.connection then
            (((((c.withSt { c.st with initQueriesPromise := some p }).bumpP).emit
              (.connQuery (c.st.initQueries.getD 0 ""))).setTasks
              ((c.tasks.set i (.queryCall sql (.qSetupWait p))) ++ [.setupRun p 0])))
          else
            ((((c.withSt { c.st with initQueriesPromise := some p }).bumpP).resolveP p
              (.err ("Initialization query failed: " ++ "connection is null"))).setTask i
              (.queryCall sql (.qSetupWait p)))
  | .qSetupWait p =>
    match c.resolved.lookup p with
    | none => c
    | some .ok => c.setTask i (.queryCall sql .qSubmit)
    | some (.err m) => c.setTask i (.fin (.err m))
  | .qSubmit =>
    if c.st.connection then
      (c.emit (.connQuery sql)).setTask i (.queryCall sql .qAwait)
    else c.setTask i (.fin (.err "DuckDB connection not available"))
  | .qAwait =>
    match r with
    | .ok => c.setTask i (.fin .ok)
    | .err m => c.setTask i (.fin (.err ("Query execution failed: " ++ m)))

/-- One segment of `registerFile` (lines 221-240): ensure initialization,
check `this.db`, skip an already-registered URL, otherwise issue
`registerFileURL` and add the URL on success only. -/
def stepRegister (c : Config) (i : Nat) (nm url : String) (ph : RPh) (r : TRes) : Config :=
  match ph with
  | .rInit =>
    initStep c i (.registerCall nm url .rBody) (fun p => .registerCall nm url (.rInitWait p))
  | .rInitWait p =>
    match c.resolved.lookup p with
    | none => c
    | some .ok => c.setTask i (.registerCall nm url .rBody)
    | some (.err m) => c.setTask i (.fin (.err m))
  | .rBody =>
    if c.st.db = false then c.setTask i (.fin (.err "DuckDB not initialized"))
    else if c.st.registeredFiles.contains url then c.setTask i (.fin .ok)
    else (c.emit (.registerFileURL nm url)).setTask i (.registerCall nm url .rAwait)
  | .rAwait =>
    match r with
    | .ok =>
      ((c.withSt { c.st with registeredFiles := c.st.registeredFiles.insert url }).setTask i
        (.fin .ok))
    | .err m =>
      c.setTask i (.fin (.err ("Failed to register file " ++ nm ++ ": " ++ m)))

/-- The field resets at the end of `close` (lines 299-305).  `duckdbModule`
is not among them. -/
def closeReset (s : MState) : MState :=
  { s with
    initPromise := none,
    registeredFiles := [],
    initQueriesExecuted := false,
    initQueriesPromise := none,
    initQueries := [] }

/-- One segment of `close` (lines 288-306): close the connection if present,
terminate the engine if present, then reset the listed fields. -/
def stepClose (c : Config) (i : Nat) (ph : CPh) (r : TRes) : Config :=
  match ph with
  | .cStart =>
    if c.st.connection then
      match r with
      | .ok => (c.emit .connClose).setTask i (.closeCall .cAwaitedClose)
      | .err m => (c.emit .connClose).setTask i (.fin (.err m))
    else if c.st.db then
      match r with
      | .ok => (c.emit .dbTerminate).setTask i (.closeCall .cAwaitedTerm)
      | .err m => (c.emit .dbTerminate).setTask i (.fin (.err m))
    else (c.withSt (closeReset c.st)).setTask i (.fin .ok)
  | .cAwaitedClose =>
    let s1 := { c.st with connection := false }
    if s1.db then
      match r with
      | .ok => ((c.withSt s1).emit .dbTerminate).setTask i (.closeCall .cAwaitedTerm)
      | .err m => ((c.withSt s1).emit .dbTerminate).setTask i (.fin (.err m))
    else (c.withSt (closeReset s1)).setTask i (.fin .ok)
  | .cAwaitedTerm =>
    (c.withSt (closeReset { c.st with db := false })).setTask i (.fin .ok)

/-- Dispatch one atomic segment of the task `t` at index `i`. -/
def stepTask (c : Config) (i : Nat) (t : Task) (r : TRes) : Config :=
  match t with
  | .initCaller .iStart => initStep c i (.fin .ok) (fun p => .initCaller (.iWait p))
  | .initCaller (.iWait p) =>
    match c.resolved.lookup p with
    | none => c
    | some .ok => c.setTask i (.fin .ok)
    | some (.err m) => c.setTask i (.fin (.err m))
  | .doInit p pc => stepDoInit c i p pc r
  | .setupRun p k => stepSetup c i p k r
  | .queryCall sql ph => stepQuery c i sql ph r
  | .registerCall nm url ph => stepRegister c i nm url ph r
  | .closeCall ph => stepClose c i ph r
  | .configQ qs =>
    if c.st.initQueriesExecuted then c.setTask i (.fin .ok)
    else (c.withSt { c.st with initQueries := qs }).setTask i (.fin .ok)
  | .configC v cd =>
    if c.st.db then c.setTask i (.fin .ok)
    else
      ((c.withSt { c.st with config :=
        { version := v.getD c.st.config.version, cdn := cd.getD c.st.config.cdn } }).setTask i
        (.fin .ok))
  | .fin _ => c

/-- One scheduler step: pick a task index and an environment outcome.  A
missing index is a stutter. -/
def step (c : Config) (ch : Nat × TRes) : Config :=
  match c.tasks[ch.1]? with
  | none => c
  | some t => stepTask c ch.1 t ch.2

/-- Run a schedule. -/
def run (c : Config) (cs : List (Nat × TRes)) : Config :=
  cs.foldl step c

/-- Initial configuration: a fresh manager with the given static
configuration and the given in-flight calls. -/
def init0 (cfg : DuckDBManagerConfig) (ts : List Task) : Config :=
  { st := { MState.fresh with config := cfg },
    windowDuckdb := false,
    tasks := ts,
    nextP := 0,
    resolved := [],
    events := [] }

/-- `N` concurrent `initialize()` requests against a fresh manager. -/
def initC (N : Nat) : Config :=
  init0 defaultConfig (List.replicate N (.initCaller .iStart))

/-- Number of times the connection-construction sequence (`doInitialize`)
was started. -/
def startCount (c : Config) : Nat := c.events.count .startInit

/-- The statements the connection received, in order. -/
def connQueries (c : Config) : List String :=
  c.events.filterMap (fun e => match e with | .connQuery s => some s | _ => none)

/-- Number of module-load attempts that actually went to a source (a dynamic
load or remote delivery), as opposed to reusing the memoized module. -/
def moduleLoadCount (c : Config) : Nat :=
  c.events.countP (fun e => match e with
    | .importAttempt => true
    | .cdnImport _ => true
    | _ => false)

/-- Number of `registerFileURL` calls the engine received for `url`. -/
def regCount (c : Config) (url : String) : Nat :=
  c.events.countP (fun e => match e with
    | .registerFileURL _ u => u == url
    | _ => false)

/-! ### Result normalization (`query`, lines 255-283)

The engine's columnar result and its conversion into the uniform
`QueryResult` shape are pure, so they are embedded directly as functions. -/

/-- A SQL cell value; `null` is the explicit null sentinel. -/
inductive SqlVal where
  | null
  | int (n : Int)
  | str (s : String)
  | boolean (b : Bool)
deriving DecidableEq, Repr

/-- A field of the Arrow result schema (only its `name` is consumed). -/
structure ArrowField where
  name : String
deriving DecidableEq, Repr

/-- The engine's columnar result: `schema.fields`, `numRows`, `numCols`,
and `getChildAt`, which may return no column (JS `undefined`); a column maps
a row index to a possibly-absent value (JS `null`/`undefined`). -/
structure ArrowResult where
  fields : List ArrowField
  numRows : Nat
  numCols : Nat
  getChildAt : Nat → Option (Nat → Option SqlVal)

/-- The cell expression `col?.get(i) ?? null` of line 269: an absent column
or an absent cell becomes the explicit null sentinel. -/
def cellAt (res : ArrowResult) (j i : Nat) : SqlVal :=
  match res.getChildAt j with
  | none => .null
  | some col => (col i).getD .null

/-- The inner loop of lines 266-270: push the cells of row `i` for column
indices `0..numCols-1`. -/
def buildRow (res : ArrowResult) (i : Nat) : List SqlVal :=
  (List.range res.numCols).foldl (fun row j => row ++ [cellAt res j i]) []

/-- The outer loop of lines 263-272: push one row per row index
`0..numRows-1`. -/
def buildRows (res : ArrowResult) : List (List SqlVal) :=
  (List.range res.numRows).foldl (fun rows i => rows ++ [buildRow res i]) []

/-- `QueryResult` (types.ts lines 102-111). -/
structure QueryResult where
  columns : List String
  rows : List (List SqlVal)
  rowCount : Nat
  executionTime : Rat
deriving DecidableEq, Repr

/-- The conversion of lines 255-279: start timestamp before submission, end
timestamp after; columns are the schema field names in order; rows from the
nested loops; `rowCount` from the engine's `numRows`. -/
def convertResult (res : ArrowResult) (startTime endTime : Rat) : QueryResult :=
  { columns := res.fields.map ArrowField.name,
    rows := buildRows res,
    rowCount := res.numRows,
    executionTime := endTime - startTime }

/-! ### Auxiliary notions for the theorems -/

/-- Replace only the configured `cdn` field. -/
def setCdnC (x : String) (c : Config) : Config :=
  c.withSt { c.st with config := { c.st.config with cdn := x } }

/-- Erase the configured `cdn` field (for stating that two runs agree on
everything except that field). -/
def scrubCdn (c : Config) : Config := setCdnC "" c

/-- Task `i` is a live `doInitialize` coroutine. -/
def doInitAt (c : Config) (i : Nat) : Prop :=
  ∃ p pc, c.tasks[i]? = some (.doInit p pc)

/-- Some caller is suspended on the initialization promise `p`. -/
def waitsInit (c : Config) (p : Nat) : Prop :=
  Task.initCaller (.iWait p) ∈ c.tasks

/-- Invariant of runs of `initC N` under failure-free environments: only
initialization tasks exist and all finished ones succeeded; `doInitialize`
was started exactly as often as a pending promise exists; at most one
`doInitialize` coroutine is live, and only while the promise is pending;
every suspended caller (and the live coroutine) refers to the pending
promise; and every settled promise was fulfilled. -/
def C1Inv (c : Config) : Prop :=
  (∀ t ∈ c.tasks,
    (∃ ph, t = .initCaller ph) ∨ (∃ p pc, t = .doInit p pc) ∨ t = .fin .ok) ∧
  (startCount c = if c.st.initPromise.isSome then 1 else 0) ∧
  (∀ i j, doInitAt c i → doInitAt c j → i = j) ∧
  (∀ i, doInitAt c i → c.st.initPromise.isSome) ∧
  (∀ p, Task.initCaller (.iWait p) ∈ c.tasks → c.st.initPromise = some p) ∧
  (∀ p pc, Task.doInit p pc ∈ c.tasks → c.st.initPromise = some p) ∧
  (∀ pr ∈ c.resolved, pr.2 = TRes.ok)

/-- A schedule that drives `N = M + 1` concurrent `initialize()` callers to
completion: caller 0 starts the acquisition, the spawned `doInitialize`
(at index `M + 1`) runs through its five segments, then callers `1..M`
return via the fast path and caller 0 resumes from the fulfilled promise. -/
def c1sched (M : Nat) : List (Nat × TRes) :=
  (0, .ok) :: (List.replicate 5 ((M + 1 : Nat), TRes.ok) ++
    (((List.range M).map (fun j => ((j + 1 : Nat), TRes.ok))) ++ [(0, .ok)]))

/-! ### Concrete scenarios -/

/-- Two `query` calls against a fresh manager with no setup statements. -/
def c2Init : Config :=
  init0 defaultConfig [.queryCall "SELECT 1" .qInit, .queryCall "SELECT 2" .qInit]

/-- The first `query` starts acquisition and `instantiate` rejects; then the
second `query` runs. -/
def c2Sched : List (Nat × TRes) :=
  [(0, .ok), (2, .ok), (2, .ok), (2, .ok), (2, .err "instantiate failed"),
   (0, .ok), (1, .ok), (1, .ok), (1, .ok)]

/-- Two `query` calls with one configured setup statement. -/
def c3Init : Config :=
  { init0 defaultConfig [.queryCall "S1" .qInit, .queryCall "S2" .qInit] with
    st := { MState.fresh with initQueries := ["INSTALL spatial"] } }

/-- The second `query` call's initialization check runs in the window after
`this.db` is assigned but before the connection opens. -/
def c3Sched : List (Nat × TRes) :=
  [(0, .ok), (2, .ok), (2, .ok), (2, .ok), (2, .ok),
   (1, .ok), (1, .ok), (2, .ok), (0, .ok), (0, .ok), (0, .ok), (1, .ok)]

/-- Two `query` calls with three configured setup statements. -/
def c4Init (qa qb qc s2 : String) : Config :=
  { init0 defaultConfig [.queryCall "S1" .qInit, .queryCall s2 .qInit] with
    st := { MState.fresh with initQueries := [qa, qb, qc] } }

/-- First phase: full acquisition, then the setup run submits statements 0
and 1 and statement 1 rejects; the first `query` observes the failure. -/
def c4SchedA : List (Nat × TRes) :=
  [(0, .ok), (2, .ok), (2, .ok), (2, .ok), (2, .ok), (2, .ok),
   (0, .ok), (0, .ok), (3, .ok), (3, .err "boom"), (0, .ok)]

/-- Second phase: the next `query` restarts the whole setup sequence and then
submits its own statement. -/
def c4SchedB : List (Nat × TRes) :=
  [(1, .ok), (1, .ok), (4, .ok), (4, .ok), (4, .ok), (1, .ok), (1, .ok), (1, .ok)]

/-- A `query`, a `registerFile`, a `close`, another `query`, another
`close`, with one configured setup statement. -/
def c5Init : Config :=
  { init0 defaultConfig
      [.queryCall "Q1" .qInit, .registerCall "f" "https://h/x" .rInit,
       .closeCall .cStart, .queryCall "Q2" .qInit, .closeCall .cStart] with
    st := { MState.fresh with initQueries := ["LOAD spatial"] } }

/-- Phase one: first query (full acquisition and setup), the registration,
and the first teardown. -/
def c5SchedA : List (Nat × TRes) :=
  [(0, .ok), (5, .ok), (5, .ok), (5, .ok), (5, .ok), (5, .ok),
   (0, .ok), (0, .ok), (6, .ok), (0, .ok), (0, .ok), (0, .ok),
   (1, .ok), (1, .ok), (1, .ok),
   (2, .ok), (2, .ok), (2, .ok)]

/-- Phase two: a second teardown (idempotence) and the second query, which
rebuilds the connection from the memoized module. -/
def c5SchedB : List (Nat × TRes) :=
  [(4, .ok),
   (3, .ok), (7, .ok), (7, .ok), (7, .ok), (7, .ok), (7, .ok),
   (3, .ok), (3, .ok), (3, .ok), (3, .ok)]

/-- A single `registerFile` against a fresh manager that has one configured
setup statement. -/
def c6Init : Config :=
  { init0 defaultConfig [.registerCall "f" "https://h/x" .rInit] with
    st := { MState.fresh with initQueries := ["INSTALL spatial"] } }

/-- The registration runs to completion; no `query` was ever issued. -/
def c6Sched : List (Nat × TRes) :=
  [(0, .ok), (1, .ok), (1, .ok), (1, .ok), (1, .ok), (1, .ok),
   (0, .ok), (0, .ok), (0, .ok)]

/-- A `query` and a concurrent `configureInitQueries(["X","Y","Z"])`, with
`["A","B"]` configured initially. -/
def c7Init : Config :=
  { init0 defaultConfig [.queryCall "S" .qInit, .configQ ["X", "Y", "Z"]] with
    st := { MState.fresh with initQueries := ["A", "B"] } }

/-- Phase one: acquisition, the setup run submits statement "A", then the
reconfiguration call runs while the setup run is in flight. -/
def c7SchedA : List (Nat × TRes) :=
  [(0, .ok), (2, .ok), (2, .ok), (2, .ok), (2, .ok), (2, .ok),
   (0, .ok), (0, .ok), (1, .ok)]

/-- Phase two: the in-flight setup run resumes and the query completes. -/
def c7SchedB : List (Nat × TRes) :=
  [(3, .ok), (3, .ok), (3, .ok), (0, .ok), (0, .ok), (0, .ok)]

/-- Two `registerFile` calls for the same URL against a fresh manager. -/
def c8Init : Config :=
  init0 defaultConfig
    [.registerCall "a" "https://h/x" .rInit, .registerCall "b" "https://h/x" .rInit]

/-- Interleaved schedule: both calls pass the membership check before either
registration settles. -/
def c8Sched : List (Nat × TRes) :=
  [(0, .ok), (2, .ok), (2, .ok), (2, .ok), (2, .ok), (2, .ok),
   (0, .ok), (1, .ok), (0, .ok), (1, .ok), (0, .ok), (1, .ok)]

/-- Sequential schedule: the first call completes before the second starts. -/
def c8SeqSched : List (Nat × TRes) :=
  [(0, .ok), (2, .ok), (2, .ok), (2, .ok), (2, .ok), (2, .ok),
   (0, .ok), (0, .ok), (0, .ok), (1, .ok), (1, .ok)]

/-- A manager with an initialized engine and an open connection. -/
def readySt : MState := { MState.fresh with db := true, connection := true }

/-- A ready manager with one `registerFile` call at its body segment. -/
def regReady : Config :=
  { init0 defaultConfig [.registerCall "f" "u" .rBody] with st := readySt }

/-- A ready manager where the URL is already registered. -/
def regDup : Config :=
  { init0 defaultConfig [.registerCall "f" "u" .rBody] with
    st := { readySt with registeredFiles := ["u"] } }

/-- A ready manager with one `registerFile` call awaiting the engine. -/
def regAwait : Config :=
  { init0 defaultConfig [.registerCall "f" "u" .rAwait] with st := readySt }

/-- A manager whose setup statements have already executed, with a pending
reconfiguration call. -/
def doneCfg : Config :=
  { init0 defaultConfig [.configQ ["Q"]] with
    st := { readySt with initQueriesExecuted := true, initQueries := ["A"] } }

/-- Task list during the canonical `initC (M + 1)` run: caller 0 suspended on
promise 0, callers `1..M` still at their start segment, and one trailing
internal task (the `doInitialize` coroutine, later its finished remnant). -/
def midTasks (M : Nat) (t : Task) : List Task :=
  (Task.initCaller (.iWait 0) :: List.replicate M (.initCaller .iStart)) ++ [t]

/-- Intermediate configuration of the canonical `initC (M + 1)` run. -/
def cStage (M : Nat) (s : MState) (t : Task) (rs : List (Nat × TRes))
    (ev : List Event) : Config :=
  { st := s, windowDuckdb := false, tasks := midTasks M t, nextP := 1,
    resolved := rs, events := ev }

/-- Manager state with the initialization promise stored. -/
def stP : MState := { MState.fresh with initPromise := some 0 }

/-- ... and the module memoized. -/
def stM : MState := { stP with duckdbModule := true }

/-- ... and the engine instance assigned. -/
def stD : MState := { stM with db := true }

/-- ... and the connection opened. -/
def stR : MState := { stD with connection := true }

def ev1 : List Event := [.startInit]

def ev2 : List Event := [.startInit, .importAttempt]

def ev3 : List Event := [.startInit, .importAttempt, .workerFetch]

def ev4 : List Event := [.startInit, .importAttempt, .workerFetch, .engineInstantiate]

def ev5 : List Event :=
  [.startInit, .importAttempt, .workerFetch, .engineInstantiate, .connOpen]

/-- A one-column, one-row engine result (for evaluating the conversion). -/
def sampleRes : ArrowResult :=
  { fields := [{ name := "1" }],
    numRows := 1,
    numCols := 1,
    getChildAt := fun j =>
      if j = 0 then some (fun i => if i = 0 then some (.int 1) else none) else none }

/-! ## Theorems -/

theorem foldl_push_eq_map {α β : Type} (f : α → β) (l : List α) (acc : List β) :
    l.foldl (fun r x => r ++ [f x]) acc = acc ++ l.map f := by
  induction l generalizing acc <;> simp_all

theorem buildRows_eq (res : ArrowResult) :
    buildRows res = (List.range res.numRows).map (fun i =>
      (List.range res.numCols).map (fun j => cellAt res j i)) := by
  unfold buildRows buildRow
  rw [foldl_push_eq_map]
  simp only [List.nil_append]
  exact List.map_congr_left (fun i _ => by rw [foldl_push_eq_map]; simp)

/-- C2: after a failure at `instantiate`, the manager does *not* return to an
absent connection state: `this.db` stays set (a constructed engine instance
without an open connection), only the pending promise is cleared, and the
next `query` does not re-attempt acquisition (no second `startInit`) — it
fails with "DuckDB connection not available" instead. -/
theorem init_failure_leaves_engine_set :
    (run c2Init c2Sched).st.db = true ∧
    (run c2Init c2Sched).st.connection = false ∧
    (run c2Init c2Sched).st.initPromise = none ∧
    startCount (run c2Init c2Sched) = 1 ∧
    (run c2Init c2Sched).tasks[1]? =
      some (.fin (.err "DuckDB connection not available")) :=
  ⟨rfl, rfl, rfl, rfl, rfl⟩

/-- C3: a `query` whose `initialize()` check runs between the assignment of
`this.db` and the opening of the connection proceeds with a null connection;
the setup IIFE throws synchronously and the rejected promise is memoized, so
the connection never receives the configured setup statement and both
queries fail — refuting the claimed in-order, exactly-once delivery under
arbitrary concurrent `query` calls. -/
theorem setup_lost_in_init_window :
    connQueries (run c3Init c3Sched) = [] ∧
    (run c3Init c3Sched).st.connection = true ∧
    (run c3Init c3Sched).st.initQueriesExecuted = false ∧
    (run c3Init c3Sched).st.initQueriesPromise = some 1 ∧
    (run c3Init c3Sched).tasks[0]? =
      some (.fin (.err ("Initialization query failed: " ++ "connection is null"))) ∧
    (run c3Init c3Sched).tasks[1]? =
      some (.fin (.err ("Initialization query failed: " ++ "connection is null"))) :=
  ⟨rfl, rfl, rfl, rfl, rfl, rfl⟩

/-- C4: with configured statements `[qa, qb, qc]`, if `qb` fails then the
connection received exactly `qa, qb`; the pending setup promise is cleared
and the done flag stays unset; the failure surfaces as an initialization
error wrapping the statement error; and a subsequent `query` re-attempts
`qa, qb, qc` from the beginning before submitting its own statement. -/
theorem setup_failure_resets_and_retries (qa qb qc s2 : String) :
    connQueries (run (c4Init qa qb qc s2) c4SchedA) = [qa, qb] ∧
    (run (c4Init qa qb qc s2) c4SchedA).st.initQueriesPromise = none ∧
    (run (c4Init qa qb qc s2) c4SchedA).st.initQueriesExecuted = false ∧
    (run (c4Init qa qb qc s2) c4SchedA).tasks[0]? =
      some (.fin (.err ("Initialization query failed: " ++ "boom"))) ∧
    connQueries (run (run (c4Init qa qb qc s2) c4SchedA) c4SchedB) =
      [qa, qb, qa, qb, qc, s2] ∧
    (run (run (c4Init qa qb qc s2) c4SchedA) c4SchedB).st.initQueriesExecuted = true := by
  simp [run, step, stepTask, stepQuery, stepSetup, stepDoInit, initStep, setupFail,
    doInitFail, c4Init, c4SchedA, c4SchedB, init0, defaultConfig, MState.fresh,
    Config.setTask, Config.withSt, Config.emit, Config.resolveP, Config.setTasks,
    Config.bumpP, Config.setWindow, connQueries, List.lookup]

/-- C5 counterexample: after `close()`, the memoized engine module is *not*
reset (`duckdbModule` is still set), and the subsequent `query`'s
re-acquisition performs no module load from any source (`moduleLoadCount`
stays 1 although the construction sequence ran twice) — so the manager does
not behave identically to a freshly constructed one. -/
theorem close_keeps_memoized_module :
    (run c5Init c5SchedA).st.duckdbModule = true ∧
    startCount (run (run c5Init c5SchedA) c5SchedB) = 2 ∧
    moduleLoadCount (run (run c5Init c5SchedA) c5SchedB) = 1 :=
  ⟨rfl, rfl, rfl⟩

/-- C5 as amended: `close()` resets the connection state, the pending
promises, the registered-file set, and the setup state and statements; a
second `close()` is a no-op on the state (idempotence); and a subsequent
`query` re-runs the connection construction (a second `startInit` and a
second `connOpen`) and completes — but the memoized module is reused. -/
theorem close_resets_manager_state :
    ((run c5Init c5SchedA).st.db = false ∧
     (run c5Init c5SchedA).st.connection = false ∧
     (run c5Init c5SchedA).st.initPromise = none ∧
     (run c5Init c5SchedA).st.registeredFiles = [] ∧
     (run c5Init c5SchedA).st.initQueriesExecuted = false ∧
     (run c5Init c5SchedA).st.initQueriesPromise = none ∧
     (run c5Init c5SchedA).st.initQueries = []) ∧
    (run (run c5Init c5SchedA) [(4, .ok)]).st = (run c5Init c5SchedA).st ∧
    ((run (run c5Init c5SchedA) c5SchedB).events.count Event.connOpen = 2 ∧
     startCount (run (run c5Init c5SchedA) c5SchedB) = 2 ∧
     (run (run c5Init c5SchedA) c5SchedB).tasks[3]? = some (.fin .ok)) :=
  ⟨⟨rfl, rfl, rfl, rfl, rfl, rfl, rfl⟩, rfl, ⟨rfl, rfl, rfl⟩⟩

/-- C6 counterexample: a `registerFile` call issued while setup statements
are configured but never executed reaches the engine (one `registerFileURL`
call) although the connection received no setup statement at all — the
registration is not queued behind setup completion. -/
theorem register_before_setup_done :
    regCount (run c6Init c6Sched) "https://h/x" = 1 ∧
    connQueries (run c6Init c6Sched) = [] ∧
    (run c6Init c6Sched).st.initQueriesExecuted = false ∧
    (run c6Init c6Sched).tasks[0]? = some (.fin .ok) :=
  ⟨rfl, rfl, rfl, rfl⟩

/-- C7 counterexample: a `configureInitQueries` call arriving while a setup
run is in flight (promise pending, done flag unset) is *not* a no-op: it
replaces the configured list, and the in-flight run observes the change —
the connection receives `A` from the old list and then `Y, Z` from the new
one. -/
theorem configure_during_running_takes_effect :
    ((run c7Init c7SchedA).st.initQueriesPromise = some 1 ∧
     (run c7Init c7SchedA).st.initQueriesExecuted = false ∧
     (run c7Init c7SchedA).st.initQueries = ["X", "Y", "Z"]) ∧
    connQueries (run (run c7Init c7SchedA) c7SchedB) = ["A", "Y", "Z", "S"] :=
  ⟨⟨rfl, rfl, rfl⟩, rfl⟩

/-- C8 counterexample: two interleaved `registerFile` calls for the same URL
both pass the membership check before either settles, so the engine receives
two `registerFileURL` calls for that URL within one connection lifetime. -/
theorem concurrent_duplicate_registration :
    regCount (run c8Init c8Sched) "https://h/x" = 2 ∧
    (run c8Init c8Sched).tasks[0]? = some (.fin .ok) ∧
    (run c8Init c8Sched).tasks[1]? = some (.fin .ok) :=
  ⟨rfl, rfl, rfl⟩

/-- C6 as amended: registrations are queued behind engine initialization —
whenever a scheduler step issues a `registerFileURL` call to the engine, the
manager's `db` field is set (the step is the guarded `rBody` segment, which
runs only after `initialize()` resolved) — but not behind setup completion. -/
theorem register_requires_initialized_engine (c : Config) (i : Nat) (r : TRes)
    (nm url : String)
    (h : (step c (i, r)).events = c.events ++ [.registerFileURL nm url]) :
    c.st.db = true := by
  unfold step at h
  rcases ht : c.tasks[i]? with _ | t <;> rw [ht] at h
  · simp at h
  · cases t with
    | initCaller ph =>
      cases ph <;>
        simp only [stepTask, initStep, Config.setTask, Config.withSt, Config.emit,
          Config.resolveP, Config.setTasks, Config.bumpP] at h <;>
        (repeat' split at h) <;> simp_all
    | doInit p pc =>
      cases pc <;>
        simp only [stepTask, stepDoInit, doInitFail, Config.setTask, Config.withSt,
          Config.emit, Config.resolveP, Config.setTasks, Config.bumpP,
          Config.setWindow] at h <;>
        (repeat' split at h) <;> simp_all
    | setupRun p k =>
      simp only [stepTask, stepSetup, setupFail, Config.setTask, Config.withSt,
        Config.emit, Config.resolveP, Config.setTasks] at h
      (repeat' split at h) <;> simp_all
    | queryCall sql ph =>
      cases ph <;>
        simp only [stepTask, stepQuery, initStep, Config.setTask, Config.withSt,
          Config.emit, Config.resolveP, Config.setTasks, Config.bumpP] at h <;>
        (repeat' split at h) <;> simp_all
    | registerCall nm2 url2 ph =>
      cases ph <;>
        simp only [stepTask, stepRegister, initStep, Config.setTask, Config.withSt,
          Config.emit, Config.resolveP, Config.setTasks, Config.bumpP] at h <;>
        (repeat' split at h) <;> simp_all
    | closeCall ph =>
      cases ph <;>
        simp only [stepTask, stepClose, closeReset, Config.setTask, Config.withSt,
          Config.emit, Config.resolveP, Config.setTasks] at h <;>
        (repeat' split at h) <;> simp_all
    | configQ qs =>
      simp only [stepTask, Config.setTask, Config.withSt] at h
      (repeat' split at h) <;> simp_all
    | configC v cd =>
      simp only [stepTask, Config.setTask, Config.withSt] at h
      (repeat' split at h) <;> simp_all
    | fin r2 => simp only [stepTask] at h; simp_all

theorem register_requires_initialized_engine_witness :
    regReady.st.db = true :=
  register_requires_initialized_engine regReady 0 .ok "f" "u" (by decide)

/-- C7 as amended: `configureInitQueries` is a no-op (state and events
unchanged) only once the setup statements have *completed*
(`initQueriesExecuted` set); while they have not completed — including while
a setup run is in flight — the call replaces the configured list. -/
theorem configure_noop_only_after_done (c : Config) (i : Nat) (qs : List String)
    (r : TRes) (ht : c.tasks[i]? = some (.configQ qs)) :
    (c.st.initQueriesExecuted = true →
      (step c (i, r)).st = c.st ∧ (step c (i, r)).events = c.events) ∧
    (c.st.initQueriesExecuted = false →
      (step c (i, r)).st.initQueries = qs) := by
  unfold step
  rw [ht]
  simp only [stepTask, Config.setTask, Config.withSt]
  constructor <;> intro hexec <;> simp [hexec]

theorem configure_noop_only_after_done_witness :
    (doneCfg.st.initQueriesExecuted = true →
      (step doneCfg (0, TRes.ok)).st = doneCfg.st ∧
      (step doneCfg (0, TRes.ok)).events = doneCfg.events) ∧
    (doneCfg.st.initQueriesExecuted = false →
      (step doneCfg (0, TRes.ok)).st.initQueries = ["Q"]) :=
  configure_noop_only_after_done doneCfg 0 ["Q"] .ok (by decide)

/-- C8 as amended, for non-overlapping calls: a `registerFile` whose URL is
already in the registered set returns without touching the engine or the
state; a failed registration leaves the state (in particular the registered
set) unchanged, so a later call retries; and the sequential double
registration of one URL yields exactly one engine call and one set entry. -/
theorem register_dedup_sequential (c : Config) (i : Nat) (nm url m : String)
    (hdb : c.st.db = true) :
    (c.tasks[i]? = some (.registerCall nm url .rBody) →
      c.st.registeredFiles.contains url = true →
      (step c (i, .ok)).events = c.events ∧ (step c (i, .ok)).st = c.st) ∧
    (c.tasks[i]? = some (.registerCall nm url .rAwait) →
      (step c (i, .err m)).st = c.st ∧ (step c (i, .err m)).events = c.events) ∧
    regCount (run c8Init c8SeqSched) "https://h/x" = 1 ∧
    (run c8Init c8SeqSched).st.registeredFiles = ["https://h/x"] ∧
    (run c8Init c8SeqSched).tasks = [.fin .ok, .fin .ok, .fin .ok] := by
  refine ⟨?_, ?_, rfl, rfl, rfl⟩
  · intro ht hmem
    have hmem2 : url ∈ c.st.registeredFiles := by simpa using hmem
    unfold step
    rw [ht]
    simp [stepTask, stepRegister, Config.setTask, hdb, hmem2]
  · intro ht
    unfold step
    rw [ht]
    simp [stepTask, stepRegister, Config.setTask]

theorem register_dedup_sequential_witness :
    (step regDup (0, TRes.ok)).events = regDup.events ∧
    (step regDup (0, TRes.ok)).st = regDup.st :=
  (register_dedup_sequential regDup 0 "f" "u" "x" (by decide)).1 (by decide) (by decide)

theorem step_setCdn (c : Config) (x : String) (ch : Nat × TRes) :
    scrubCdn (step (setCdnC x c) ch) = scrubCdn (step c ch) := by
  obtain ⟨i, r⟩ := ch
  unfold step
  have htasks : (setCdnC x c).tasks = c.tasks := rfl
  rw [htasks]
  rcases ht : c.tasks[i]? with _ | t
  · rfl
  · cases t with
    | initCaller ph =>
      cases ph <;>
        simp only [stepTask, initStep, Config.setTask, Config.withSt, Config.emit,
          Config.resolveP, Config.setTasks, Config.bumpP, setCdnC, scrubCdn] <;>
        (repeat' split) <;> simp_all [scrubCdn, setCdnC, Config.withSt]
    | doInit p pc =>
      cases pc <;>
        simp only [stepTask, stepDoInit, doInitFail, cdnUrl, Config.setTask,
          Config.withSt, Config.emit, Config.resolveP, Config.setTasks, Config.bumpP,
          Config.setWindow, setCdnC, scrubCdn] <;>
        (repeat' split) <;> simp_all [scrubCdn, setCdnC, Config.withSt]
    | setupRun p k =>
      simp only [stepTask, stepSetup, setupFail, Config.setTask, Config.withSt,
        Config.emit, Config.resolveP, Config.setTasks, setCdnC, scrubCdn]
      (repeat' split) <;> simp_all [scrubCdn, setCdnC, Config.withSt]
    | queryCall sql ph =>
      cases ph <;>
        simp only [stepTask, stepQuery, initStep, Config.setTask, Config.withSt,
          Config.emit, Config.resolveP, Config.setTasks, Config.bumpP, setCdnC,
          scrubCdn] <;>
        (repeat' split) <;> simp_all [scrubCdn, setCdnC, Config.withSt]
    | registerCall nm url ph =>
      cases ph <;>
        simp only [stepTask, stepRegister, initStep, Config.setTask, Config.withSt,
          Config.emit, Config.resolveP, Config.setTasks, Config.bumpP, setCdnC,
          scrubCdn] <;>
        (repeat' split) <;> simp_all [scrubCdn, setCdnC, Config.withSt]
    | closeCall ph =>
      cases ph <;>
        simp only [stepTask, stepClose, closeReset, Config.setTask, Config.withSt,
          Config.emit, Config.resolveP, Config.setTasks, setCdnC, scrubCdn] <;>
        (repeat' split) <;> simp_all [scrubCdn, setCdnC, Config.withSt]
    | configQ qs =>
      simp only [stepTask, Config.setTask, Config.withSt, setCdnC, scrubCdn]
      (repeat' split) <;> simp_all [scrubCdn, setCdnC, Config.withSt]
    | configC v cd =>
      simp only [stepTask, Config.setTask, Config.withSt, setCdnC, scrubCdn]
      (repeat' split) <;> simp_all [scrubCdn, setCdnC, Config.withSt]
    | fin r2 => rfl

theorem eq_setCdn_of_scrub_eq {a b : Config} (h : scrubCdn a = scrubCdn b) :
    a = setCdnC a.st.config.cdn b := by
  obtain ⟨⟨adb, aco, aip, ⟨av, acdn⟩, arf, adm, aie, aiq, aql⟩, aw, ats, anp, ars, aev⟩ := a
  obtain ⟨⟨bdb, bco, bip, ⟨bv, bcdn⟩, brf, bdm, bie, biq, bql⟩, bw, bts, bnp, brs, bev⟩ := b
  simp_all [scrubCdn, setCdnC, Config.withSt]

theorem run_setCdn (cs : List (Nat × TRes)) (c : Config) (x : String) :
    scrubCdn (run (setCdnC x c) cs) = scrubCdn (run c cs) := by
  induction cs generalizing c x with
  | nil => rfl
  | cons ch rest ih =>
    show scrubCdn (run (step (setCdnC x c) ch) rest) = scrubCdn (run (step c ch) rest)
    rw [eq_setCdn_of_scrub_eq (step_setCdn c x ch)]
    exact ih (step c ch) _

/-- C10: the configured `cdn` field never influences observable behavior.
The remote module-load URL is built from a hard-coded base and the
configured version only, and two runs of the manager that differ only in the
`cdn` field produce identical events, task outcomes, and settled promises,
and identical final states except for the stored `cdn` string itself. -/
theorem cdn_field_noninterference (ver cdn1 cdn2 : String) (ts : List Task)
    (cs : List (Nat × TRes)) :
    cdnUrl { version := ver, cdn := cdn1 } = cdnUrl { version := ver, cdn := cdn2 } ∧
    (run (init0 { version := ver, cdn := cdn1 } ts) cs).events =
      (run (init0 { version := ver, cdn := cdn2 } ts) cs).events ∧
    (run (init0 { version := ver, cdn := cdn1 } ts) cs).tasks =
      (run (init0 { version := ver, cdn := cdn2 } ts) cs).tasks ∧
    (run (init0 { version := ver, cdn := cdn1 } ts) cs).resolved =
      (run (init0 { version := ver, cdn := cdn2 } ts) cs).resolved ∧
    scrubCdn (run (init0 { version := ver, cdn := cdn1 } ts) cs) =
      scrubCdn (run (init0 { version := ver, cdn := cdn2 } ts) cs) := by
  have hinit : init0 { version := ver, cdn := cdn1 } ts =
      setCdnC cdn1 (init0 { version := ver, cdn := cdn2 } ts) := rfl
  have hscrub : scrubCdn (run (init0 { version := ver, cdn := cdn1 } ts) cs) =
      scrubCdn (run (init0 { version := ver, cdn := cdn2 } ts) cs) := by
    rw [hinit]
    exact run_setCdn cs _ cdn1
  have hev := congrArg Config.events hscrub
  have hts := congrArg Config.tasks hscrub
  have hrs := congrArg Config.resolved hscrub
  exact ⟨rfl, hev, hts, hrs, hscrub⟩

/-- C9: a successful `query` produces a `QueryResult` whose columns are the
schema field names in order, whose rows enumerate row indices and, within
each row, column indices, substituting the explicit null sentinel for an
absent column or absent cell, whose `rowCount` equals the engine's row count
(and the number of rows), and whose elapsed time is the difference of the
timestamps taken around the submission. -/
theorem query_result_normalization (res : ArrowResult) (startTime endTime : Rat) :
    (convertResult res startTime endTime).columns = res.fields.map ArrowField.name ∧
    (convertResult res startTime endTime).rows =
      (List.range res.numRows).map (fun i =>
        (List.range res.numCols).map (fun j => cellAt res j i)) ∧
    (convertResult res startTime endTime).rowCount = res.numRows ∧
    (convertResult res startTime endTime).rows.length = res.numRows ∧
    (∀ row, row ∈ (convertResult res startTime endTime).rows → row.length = res.numCols) ∧
    (∀ j i, res.getChildAt j = none → cellAt res j i = SqlVal.null) ∧
    (∀ j i col, res.getChildAt j = some col → col i = none → cellAt res j i = SqlVal.null) ∧
    (convertResult res startTime endTime).executionTime = endTime - startTime := by
  refine ⟨rfl, ?_, rfl, ?_, ?_, ?_, ?_, rfl⟩
  · exact buildRows_eq res
  · show (buildRows res).length = _
    rw [buildRows_eq]; simp
  · intro row hrow
    rw [show (convertResult res startTime endTime).rows = buildRows res from rfl,
      buildRows_eq] at hrow
    obtain ⟨i, _, rfl⟩ := List.mem_map.mp hrow
    simp
  · intro j i h
    simp [cellAt, h]
  · intro j i col h hc
    simp [cellAt, h, hc]


/-! ### Single-flight initialization (C1) -/

theorem lookup_mem {l : List (Nat × TRes)} {p : Nat} {r : TRes}
    (h : l.lookup p = some r) : (p, r) ∈ l := by
  induction l with
  | nil => simp [List.lookup] at h
  | cons hd tl ih =>
    rw [List.lookup] at h
    rcases hbeq : (p == hd.1) with _ | _
    · simp only [hbeq] at h
      exact List.mem_cons_of_mem _ (ih h)
    · simp only [hbeq] at h
      obtain ⟨h1, h2⟩ := hd
      simp only [Option.some.injEq] at h
      simp at hbeq
      simp [hbeq, h]

theorem doInitAt_setTask {c : Config} {i j : Nat} {t : Task}
    (h : doInitAt (c.setTask i t) j) :
    (j = i ∧ (∃ p pc, t = .doInit p pc)) ∨ doInitAt c j := by
  obtain ⟨p, pc, hj⟩ := h
  simp only [Config.setTask] at hj
  by_cases hij : i = j
  · subst hij
    rcases Nat.lt_or_ge i c.tasks.length with hlt | hge
    · rw [List.getElem?_set_eq_of_lt _ hlt] at hj
      exact Or.inl ⟨rfl, p, pc, by injection hj⟩
    · rw [List.set_eq_of_length_le hge] at hj
      exact Or.inr ⟨p, pc, hj⟩
  · rw [List.getElem?_set_ne hij] at hj
    exact Or.inr ⟨p, pc, hj⟩

theorem mem_setTask {c : Config} {i : Nat} {t u : Task}
    (h : u ∈ (c.setTask i t).tasks) : u = t ∨ u ∈ c.tasks := by
  simp only [Config.setTask] at h
  exact (List.mem_or_eq_of_mem_set h).symm.imp id id

theorem getElem?_mem_tasks {c : Config} {i : Nat} {t : Task}
    (h : c.tasks[i]? = some t) : t ∈ c.tasks := by
  obtain ⟨hlt, rfl⟩ := List.getElem?_eq_some_iff.mp h
  exact List.getElem_mem hlt

theorem startCount_setTask (c : Config) (i : Nat) (t : Task) :
    startCount (c.setTask i t) = startCount c := rfl

theorem C1Inv_setTask_fin {c : Config} (i : Nat) (h : C1Inv c) :
    C1Inv (c.setTask i (.fin .ok)) := by
  obtain ⟨hshape, hcount, huniq, hsome, hwait, hdo, hres⟩ := h
  refine ⟨?_, hcount, ?_, ?_, ?_, ?_, hres⟩
  · intro u hu
    rcases mem_setTask hu with rfl | hu2
    · exact Or.inr (Or.inr rfl)
    · exact hshape u hu2
  · intro a b ha hb
    rcases doInitAt_setTask ha with ⟨_, _, _, hcon⟩ | ha2
    · cases hcon
    rcases doInitAt_setTask hb with ⟨_, _, _, hcon⟩ | hb2
    · cases hcon
    exact huniq a b ha2 hb2
  · intro a ha
    rcases doInitAt_setTask ha with ⟨_, _, _, hcon⟩ | ha2
    · cases hcon
    exact hsome a ha2
  · intro p hp
    rcases mem_setTask hp with hcon | hp2
    · cases hcon
    exact hwait p hp2
  · intro p pc hp
    rcases mem_setTask hp with hcon | hp2
    · cases hcon
    exact hdo p pc hp2

theorem C1Inv_setTask_wait {c : Config} {i p : Nat}
    (hp : c.st.initPromise = some p) (h : C1Inv c) :
    C1Inv (c.setTask i (.initCaller (.iWait p))) := by
  obtain ⟨hshape, hcount, huniq, hsome, hwait, hdo, hres⟩ := h
  refine ⟨?_, hcount, ?_, ?_, ?_, ?_, hres⟩
  · intro u hu
    rcases mem_setTask hu with rfl | hu2
    · exact Or.inl ⟨_, rfl⟩
    · exact hshape u hu2
  · intro a b ha hb
    rcases doInitAt_setTask ha with ⟨_, _, _, hcon⟩ | ha2
    · cases hcon
    rcases doInitAt_setTask hb with ⟨_, _, _, hcon⟩ | hb2
    · cases hcon
    exact huniq a b ha2 hb2
  · intro a ha
    rcases doInitAt_setTask ha with ⟨_, _, _, hcon⟩ | ha2
    · cases hcon
    exact hsome a ha2
  · intro q hq
    rcases mem_setTask hq with hcon | hq2
    · injection hcon with h1
      injection h1 with h2
      rw [← h2] at hp
      exact hp
    · exact hwait q hq2
  · intro q pc hp2
    rcases mem_setTask hp2 with hcon | hq2
    · cases hcon
    exact hdo q pc hq2

theorem C1Inv_doInit_advance {c c2 : Config} {i p : Nat} {pc pc2 : DPC}
    (ht : c.tasks[i]? = some (.doInit p pc)) (h : C1Inv c)
    (hip : c2.st.initPromise = c.st.initPromise)
    (hcnt : startCount c2 = startCount c)
    (hrs : c2.resolved = c.resolved)
    (hts : c2.tasks = c.tasks.set i (.doInit p pc2)) :
    C1Inv c2 := by
  obtain ⟨hshape, hcount, huniq, hsome, hwait, hdo, hres⟩ := h
  have hdi : doInitAt c i := ⟨p, pc, ht⟩
  have hmem := getElem?_mem_tasks ht
  refine ⟨?_, ?_, ?_, ?_, ?_, ?_, ?_⟩
  · intro u hu
    rw [hts] at hu
    rcases (List.mem_or_eq_of_mem_set hu).symm with rfl | hu2
    · exact Or.inr (Or.inl ⟨p, pc2, rfl⟩)
    · exact hshape u hu2
  · rw [hcnt, hip]
    exact hcount
  · intro a b ha hb
    have key : ∀ x, doInitAt c2 x → x = i := by
      intro x hx
      obtain ⟨q, qc, hq⟩ := hx
      rw [hts] at hq
      by_cases hxi : i = x
      · exact hxi.symm
      · rw [List.getElem?_set_ne hxi] at hq
        exact huniq x i ⟨q, qc, hq⟩ hdi
    rw [key a ha, key b hb]
  · intro a ha
    rw [hip]
    exact hsome i hdi
  · intro q hq
    rw [hip]
    rw [hts] at hq
    rcases (List.mem_or_eq_of_mem_set hq).symm with hcon | hq2
    · cases hcon
    · exact hwait q hq2
  · intro q qc hq
    rw [hip]
    rw [hts] at hq
    rcases (List.mem_or_eq_of_mem_set hq).symm with hcon | hq2
    · injection hcon with h1 h2
      rw [h1]
      exact hdo p pc hmem
    · exact hdo q qc hq2
  · intro pr hpr
    rw [hrs] at hpr
    exact hres pr hpr

theorem C1Inv_doInit_fin {c c2 : Config} {i p : Nat} {pc : DPC}
    (ht : c.tasks[i]? = some (.doInit p pc)) (h : C1Inv c)
    (hip : c2.st.initPromise = c.st.initPromise)
    (hcnt : startCount c2 = startCount c)
    (hrs : c2.resolved = (p, TRes.ok) :: c.resolved)
    (hts : c2.tasks = c.tasks.set i (.fin .ok)) :
    C1Inv c2 := by
  obtain ⟨hshape, hcount, huniq, hsome, hwait, hdo, hres⟩ := h
  have hdi : doInitAt c i := ⟨p, pc, ht⟩
  have hlt := (List.getElem?_eq_some_iff.mp ht).1
  have hnone : ∀ x, ¬ doInitAt c2 x := by
    intro x hx
    obtain ⟨q, qc, hq⟩ := hx
    rw [hts] at hq
    by_cases hxi : i = x
    · subst hxi
      rw [List.getElem?_set_eq_of_lt _ hlt] at hq
      cases hq
    · rw [List.getElem?_set_ne hxi] at hq
      exact hxi (huniq i x hdi ⟨q, qc, hq⟩)
  refine ⟨?_, ?_, ?_, ?_, ?_, ?_, ?_⟩
  · intro u hu
    rw [hts] at hu
    rcases (List.mem_or_eq_of_mem_set hu).symm with rfl | hu2
    · exact Or.inr (Or.inr rfl)
    · exact hshape u hu2
  · rw [hcnt, hip]
    exact hcount
  · intro a b ha hb
    exact absurd ha (hnone a)
  · intro a ha
    exact absurd ha (hnone a)
  · intro q hq
    rw [hip]
    rw [hts] at hq
    rcases (List.mem_or_eq_of_mem_set hq).symm with hcon | hq2
    · cases hcon
    · exact hwait q hq2
  · intro q qc hq
    rw [hip]
    rw [hts] at hq
    rcases (List.mem_or_eq_of_mem_set hq).symm with hcon | hq2
    · cases hcon
    · exact hdo q qc hq2
  · intro pr hpr
    rw [hrs] at hpr
    rcases List.mem_cons.mp hpr with rfl | hpr2
    · rfl
    · exact hres pr hpr2

theorem startCount_emit (c : Config) (e : Event) (he : e ≠ Event.startInit) :
    startCount (c.emit e) = startCount c := by
  show (c.events ++ [e]).count Event.startInit = c.events.count Event.startInit
  rw [List.count_append]
  have h0 : List.count Event.startInit [e] = 0 := by
    rw [List.count_eq_zero]
    simp [Ne.symm he]
  rw [h0, Nat.add_zero]

theorem C1Inv_spawn {c : Config} (i : Nat)
    (hnone : c.st.initPromise = none) (h : C1Inv c) :
    C1Inv ((((c.withSt { c.st with initPromise := some c.nextP }).bumpP).emit
        .startInit).setTasks
      ((c.tasks.set i (.initCaller (.iWait c.nextP))) ++ [.doInit c.nextP .loadMod])) := by
  obtain ⟨hshape, hcount, huniq, hsome, hwait, hdo, hres⟩ := h
  refine ⟨?_, ?_, ?_, ?_, ?_, ?_, ?_⟩
  · intro u hu
    rcases List.mem_append.mp hu with hu1 | hu2
    · rcases (List.mem_or_eq_of_mem_set hu1).symm with rfl | hu3
      · exact Or.inl ⟨_, rfl⟩
      · exact hshape u hu3
    · rw [List.mem_singleton.mp hu2]
      exact Or.inr (Or.inl ⟨_, _, rfl⟩)
  · have h0 : startCount c = 0 := by rw [hcount, hnone]; rfl
    show (c.events ++ [Event.startInit]).count Event.startInit = _
    rw [List.count_append]
    have h1 : c.events.count Event.startInit = 0 := h0
    simp [h1, List.count_singleton, Config.withSt, Config.bumpP, Config.emit, Config.setTasks]
  · intro a b ha hb
    have key : ∀ x, doInitAt ((((c.withSt { c.st with
          initPromise := some c.nextP }).bumpP).emit .startInit).setTasks
        ((c.tasks.set i (.initCaller (.iWait c.nextP))) ++
          [.doInit c.nextP .loadMod])) x →
        x = (c.tasks.set i (.initCaller (.iWait c.nextP))).length := by
      intro x hx
      obtain ⟨q, qc, hq⟩ := hx
      simp only [Config.setTasks, Config.emit, Config.bumpP, Config.withSt] at hq
      rw [List.getElem?_append] at hq
      by_cases hxlen : x < (c.tasks.set i (.initCaller (.iWait c.nextP))).length
      · rw [if_pos hxlen] at hq
        by_cases hxi : i = x
        · subst hxi
          have hlt : i < c.tasks.length := by simpa using hxlen
          rw [List.getElem?_set_eq_of_lt _ hlt] at hq
          cases hq
        · rw [List.getElem?_set_ne hxi] at hq
          have := hsome x ⟨q, qc, hq⟩
          rw [hnone] at this
          cases this
      · rw [if_neg hxlen] at hq
        have hz : x - (c.tasks.set i (.initCaller (.iWait c.nextP))).length = 0 := by
          by_contra hne
          rcases Nat.exists_eq_succ_of_ne_zero hne with ⟨k, hk⟩
          rw [hk] at hq
          simp at hq
        omega
    rw [key a ha, key b hb]
  · intro a ha
    rfl
  · intro q hq
    rcases List.mem_append.mp hq with hq1 | hq2
    · rcases (List.mem_or_eq_of_mem_set hq1).symm with heq | hq3
      · injection heq with h1
        injection h1 with h2
        rw [h2]
        rfl
      · have := hwait q hq3
        rw [hnone] at this
        cases this
    · cases List.mem_singleton.mp hq2
  · intro q qc hq
    rcases List.mem_append.mp hq with hq1 | hq2
    · rcases (List.mem_or_eq_of_mem_set hq1).symm with heq | hq3
      · cases heq
      · have := hdo q qc hq3
        rw [hnone] at this
        cases this
    · have heq := List.mem_singleton.mp hq2
      injection heq with h1 h2
      rw [h1]
      rfl
  · intro pr hpr
    exact hres pr hpr

theorem C1Inv_step (c : Config) (i : Nat) (h : C1Inv c) :
    C1Inv (step c (i, TRes.ok)) := by
  have hgoal : step c (i, TRes.ok) = (match c.tasks[i]? with
    | none => c
    | some t => stepTask c i t TRes.ok) := rfl
  rw [hgoal]
  cases ht : c.tasks[i]? with
  | none => exact h
  | some t =>
    have htm := getElem?_mem_tasks ht
    rcases h.1 t htm with ⟨ph, rfl⟩ | ⟨p, pc, rfl⟩ | rfl
    · cases ph with
      | iStart =>
        show C1Inv (initStep c i (.fin .ok) (fun p => .initCaller (.iWait p)))
        unfold initStep
        by_cases hdb : c.st.db = true
        · simp only [hdb, if_true]
          exact C1Inv_setTask_fin i h
        · simp only [Bool.not_eq_true] at hdb
          simp only [hdb, Bool.false_eq_true, if_false]
          cases hp : c.st.initPromise with
          | none => exact C1Inv_spawn i hp h
          | some p => exact C1Inv_setTask_wait hp h
      | iWait p =>
        show C1Inv (match c.resolved.lookup p with
          | none => c
          | some .ok => c.setTask i (.fin .ok)
          | some (.err m) => c.setTask i (.fin (.err m)))
        cases hl : c.resolved.lookup p with
        | none => exact h
        | some r =>
          have hok := h.2.2.2.2.2.2 _ (lookup_mem hl)
          cases r with
          | ok => exact C1Inv_setTask_fin i h
          | err m => exact absurd hok (by simp)
    · show C1Inv (stepDoInit c i p pc TRes.ok)
      cases pc with
      | loadMod =>
        unfold stepDoInit
        by_cases h1 : c.st.duckdbModule = true
        · simp only [h1, if_true]
          exact C1Inv_doInit_advance ht h rfl rfl rfl rfl
        · simp only [Bool.not_eq_true] at h1
          simp only [h1, Bool.false_eq_true, if_false]
          by_cases h2 : c.windowDuckdb = true
          · simp only [h2, if_true]
            exact C1Inv_doInit_advance ht h rfl rfl rfl rfl
          · simp only [Bool.not_eq_true] at h2
            simp only [h2, Bool.false_eq_true, if_false]
            exact C1Inv_doInit_advance ht h rfl
              (startCount_emit _ _ (by simp)) rfl rfl
      | loadCdn =>
        exact C1Inv_doInit_advance ht h rfl
          (startCount_emit _ _ (by simp)) rfl rfl
      | selectBundle =>
        exact C1Inv_doInit_advance ht h rfl rfl rfl rfl
      | fetchWorker =>
        exact C1Inv_doInit_advance ht h rfl
          (startCount_emit _ _ (by simp)) rfl rfl
      | instantiate =>
        exact C1Inv_doInit_advance ht h rfl
          (startCount_emit _ _ (by simp)) rfl rfl
      | connect =>
        exact C1Inv_doInit_fin ht h rfl
          (startCount_emit _ _ (by simp)) rfl rfl
    · exact h

theorem C1Inv_run (cs : List (Nat × TRes)) (c : Config) (h : C1Inv c)
    (hok : ∀ ch ∈ cs, ch.2 = TRes.ok) : C1Inv (run c cs) := by
  induction cs generalizing c with
  | nil => exact h
  | cons ch rest ih =>
    obtain ⟨j, r⟩ := ch
    have hr : r = TRes.ok := hok (j, r) (List.mem_cons_self _ _)
    subst hr
    exact ih (step c (j, .ok)) (C1Inv_step c j h)
      (fun x hx => hok x (List.mem_cons_of_mem _ hx))

theorem C1Inv_initC (N : Nat) : C1Inv (initC N) := by
  refine ⟨?_, rfl, ?_, ?_, ?_, ?_, ?_⟩
  · intro t ht
    exact Or.inl ⟨_, List.eq_of_mem_replicate ht⟩
  · intro a b ha hb
    obtain ⟨p, pc, hq⟩ := ha
    have := List.eq_of_mem_replicate (getElem?_mem_tasks hq)
    cases this
  · intro a ha
    obtain ⟨p, pc, hq⟩ := ha
    have := List.eq_of_mem_replicate (getElem?_mem_tasks hq)
    cases this
  · intro p hp
    have := List.eq_of_mem_replicate hp
    cases this
  · intro p pc hp
    have := List.eq_of_mem_replicate hp
    cases this
  · intro pr hpr
    cases hpr

theorem getAt_append (pre : List Task) (x : Task) (rest : List Task) :
    (pre ++ x :: rest)[pre.length]? = some x := by
  induction pre <;> simp_all

theorem setAt_append (pre : List Task) (x : Task) (rest : List Task) (y : Task) :
    (pre ++ x :: rest).set pre.length y = pre ++ y :: rest := by
  induction pre <;> simp_all

theorem setTasks_self (c : Config) : c.setTasks c.tasks = c := rfl

theorem finish_callers (m : Nat) (pre post : List Task) (c : Config)
    (hdb : c.st.db = true)
    (ht : c.tasks = pre ++ (List.replicate m (.initCaller .iStart) ++ post)) :
    run c ((List.range m).map (fun j => ((pre.length + j : Nat), TRes.ok))) =
      c.setTasks (pre ++ (List.replicate m (.fin .ok) ++ post)) := by
  induction m generalizing pre c with
  | zero =>
    simp only [List.range_zero, List.map_nil, List.replicate]
    simp only [List.replicate] at ht
    rw [run]
    simp only [List.foldl_nil]
    rw [← ht]
    exact (setTasks_self c).symm
  | succ m ih =>
    rw [List.range_succ_eq_map]
    simp only [List.map_cons, List.map_map]
    have hstep : step c ((pre.length + 0 : Nat), TRes.ok) =
        c.setTasks (pre ++ (Task.fin .ok :: (List.replicate m (.initCaller .iStart) ++ post))) := by
      unfold step
      rw [ht]
      simp only [List.replicate_succ, List.cons_append, Nat.add_zero]
      rw [getAt_append]
      simp only [stepTask, initStep, hdb, if_pos, Config.setTask]
      rw [ht]
      simp only [List.replicate_succ, List.cons_append]
      rw [setAt_append]
      rfl
    show run (step c ((pre.length + 0 : Nat), TRes.ok)) _ = _
    rw [hstep]
    have harr : ∀ j : Nat, pre.length + (j + 1) = (pre ++ [Task.fin .ok]).length + j := by
      intro j; simp; omega
    have hmapeq : ((List.range m).map ((fun j => ((pre.length + j : Nat), TRes.ok)) ∘ (· + 1))) =
        (List.range m).map (fun j => (((pre ++ [Task.fin .ok]).length + j : Nat), TRes.ok)) := by
      refine List.map_congr_left (fun j _ => ?_)
      simp only [Function.comp]
      rw [harr j]
    rw [hmapeq]
    have hts : (c.setTasks (pre ++ (Task.fin .ok :: (List.replicate m (.initCaller .iStart) ++ post)))).tasks =
        (pre ++ [Task.fin .ok]) ++ (List.replicate m (.initCaller .iStart) ++ post) := by
      simp [Config.setTasks]
    have hdb2 : (c.setTasks (pre ++ (Task.fin .ok :: (List.replicate m (.initCaller .iStart) ++ post)))).st.db = true := hdb
    rw [ih (pre ++ [Task.fin .ok]) _ hdb2 hts]
    show Config.setTasks _ _ = _
    simp [Config.setTasks, List.replicate_succ]

theorem setLast {α : Type} (l : List α) (d y : α) :
    (l ++ [d]).set l.length y = l ++ [y] := by
  induction l <;> simp_all

theorem stepMid (M : Nat) (c : Config) (t : Task) (r : TRes)
    (ht : c.tasks = midTasks M t) :
    step c ((M + 1 : Nat), r) = stepTask c (M + 1) t r := by
  unfold step
  rw [ht]
  have hlen : M + 1 = (Task.initCaller (.iWait 0) ::
      List.replicate M (.initCaller .iStart)).length := by simp
  have hget : (midTasks M t)[(M + 1 : Nat)]? = some t := by
    unfold midTasks
    rw [hlen]
    simp [List.getElem?_append_right]
  rw [hget]

theorem setMid (M : Nat) (t u : Task) :
    (midTasks M t).set (M + 1) u = midTasks M u := by
  have hlen : M + 1 = (Task.initCaller (.iWait 0) ::
      List.replicate M (.initCaller .iStart)).length := by simp
  unfold midTasks
  rw [hlen, setLast]

theorem c1_spawn (M : Nat) :
    step (initC (M + 1)) (0, .ok) = cStage M stP (.doInit 0 .loadMod) [] ev1 := by
  unfold step initC init0
  simp [List.replicate_succ, stepTask, initStep, MState.fresh, Config.setTask,
    Config.withSt, Config.emit, Config.setTasks, Config.bumpP, cStage, midTasks,
    stP, ev1]

theorem c1_load (M : Nat) :
    step (cStage M stP (.doInit 0 .loadMod) [] ev1) ((M + 1 : Nat), .ok) =
      cStage M stM (.doInit 0 .selectBundle) [] ev2 := by
  rw [stepMid M _ _ _ rfl]
  simp [stepTask, stepDoInit, cStage, stP, stM, MState.fresh, ev1, ev2,
    Config.setTask, Config.withSt, Config.emit, setMid]

theorem c1_bundle (M : Nat) :
    step (cStage M stM (.doInit 0 .selectBundle) [] ev2) ((M + 1 : Nat), .ok) =
      cStage M stM (.doInit 0 .fetchWorker) [] ev2 := by
  rw [stepMid M _ _ _ rfl]
  simp [stepTask, stepDoInit, cStage, Config.setTask, setMid]

theorem c1_fetch (M : Nat) :
    step (cStage M stM (.doInit 0 .fetchWorker) [] ev2) ((M + 1 : Nat), .ok) =
      cStage M stM (.doInit 0 .instantiate) [] ev3 := by
  rw [stepMid M _ _ _ rfl]
  simp [stepTask, stepDoInit, cStage, ev2, ev3, Config.setTask, Config.emit, setMid]

theorem c1_inst (M : Nat) :
    step (cStage M stM (.doInit 0 .instantiate) [] ev3) ((M + 1 : Nat), .ok) =
      cStage M stD (.doInit 0 .connect) [] ev4 := by
  rw [stepMid M _ _ _ rfl]
  simp [stepTask, stepDoInit, cStage, stM, stD, ev3, ev4, Config.setTask,
    Config.withSt, Config.emit, setMid]

theorem c1_conn (M : Nat) :
    step (cStage M stD (.doInit 0 .connect) [] ev4) ((M + 1 : Nat), .ok) =
      cStage M stR (.fin .ok) [(0, .ok)] ev5 := by
  rw [stepMid M _ _ _ rfl]
  simp [stepTask, stepDoInit, cStage, stD, stR, ev4, ev5, Config.setTask,
    Config.withSt, Config.emit, Config.resolveP, setMid]

theorem run_cons (c : Config) (ch : Nat × TRes) (rest : List (Nat × TRes)) :
    run c (ch :: rest) = run (step c ch) rest := rfl

theorem run_append (c : Config) (a b : List (Nat × TRes)) :
    run c (a ++ b) = run (run c a) b := by
  simp [run, List.foldl_append]

theorem c1sched_completes (M : Nat) :
    run (initC (M + 1)) (c1sched M) =
      { st := stR, windowDuckdb := false,
        tasks := List.replicate (M + 2) (.fin .ok), nextP := 1,
        resolved := [(0, .ok)], events := ev5 } := by
  unfold c1sched
  rw [run_cons, c1_spawn, run_append]
  have h5 : run (cStage M stP (.doInit 0 .loadMod) [] ev1)
      (List.replicate 5 ((M + 1 : Nat), TRes.ok)) =
      cStage M stR (.fin .ok) [(0, .ok)] ev5 := by
    show run _ (((M + 1 : Nat), TRes.ok) :: ((M + 1 : Nat), TRes.ok) ::
      ((M + 1 : Nat), TRes.ok) :: ((M + 1 : Nat), TRes.ok) ::
      ((M + 1 : Nat), TRes.ok) :: []) = _
    rw [run_cons, c1_load, run_cons, c1_bundle, run_cons, c1_fetch,
      run_cons, c1_inst, run_cons, c1_conn]
    rfl
  rw [h5, run_append]
  have hfin : run (cStage M stR (.fin .ok) [(0, .ok)] ev5)
      ((List.range M).map (fun j => ((j + 1 : Nat), TRes.ok))) =
      (cStage M stR (.fin .ok) [(0, .ok)] ev5).setTasks
        ([Task.initCaller (.iWait 0)] ++
          (List.replicate M (.fin .ok) ++ [Task.fin .ok])) := by
    have hmap : (List.range M).map (fun j => ((j + 1 : Nat), TRes.ok)) =
        (List.range M).map (fun j =>
          ((([Task.initCaller (IPh.iWait 0)] : List Task).length + j : Nat), TRes.ok)) := by
      refine List.map_congr_left (fun j _ => ?_)
      simp [Nat.add_comm]
    rw [hmap]
    exact finish_callers M [Task.initCaller (.iWait 0)] [Task.fin .ok] _ rfl
      (by simp [cStage, midTasks])
  rw [hfin]
  rw [run_cons]
  have hrep : Task.fin TRes.ok :: (List.replicate M (Task.fin TRes.ok) ++
      [Task.fin TRes.ok]) = List.replicate (M + 2) (Task.fin TRes.ok) := by
    rw [← List.replicate_succ', ← List.replicate_succ]
  have hlast : step ((cStage M stR (.fin .ok) [(0, .ok)] ev5).setTasks
      ([Task.initCaller (.iWait 0)] ++
        (List.replicate M (.fin .ok) ++ [Task.fin .ok]))) ((0 : Nat), TRes.ok) =
      { st := stR, windowDuckdb := false,
        tasks := List.replicate (M + 2) (.fin .ok), nextP := 1,
        resolved := [(0, .ok)], events := ev5 } := by
    unfold step
    simp only [Config.setTasks, cStage, List.singleton_append,
      List.getElem?_cons_zero]
    show stepTask _ 0 (Task.initCaller (.iWait 0)) TRes.ok = _
    simp only [stepTask, List.lookup]
    norm_num
    simp only [Config.setTask, List.set_cons_zero, Config.setTasks]
    rw [hrep]
  rw [hlast]
  rfl

/-- C1: for any number `N >= 1` of initialization requests issued
concurrently against a fresh manager, under a failure-free environment and
any interleaving the connection-construction sequence starts at most once,
at most one `doInitialize` coroutine is ever live, and all suspended callers
await the same (unique) pending promise; moreover the canonical schedule
drives the construction sequence exactly once to completion, after which all
`N` callers (and the coroutine) have resolved successfully. -/
theorem initialize_single_flight (N : Nat) (hN : 1 ≤ N) (cs : List (Nat × TRes))
    (hok : ∀ ch ∈ cs, ch.2 = TRes.ok) :
    (startCount (run (initC N) cs) ≤ 1 ∧
     (∀ a b, doInitAt (run (initC N) cs) a → doInitAt (run (initC N) cs) b → a = b) ∧
     (∀ p q, waitsInit (run (initC N) cs) p → waitsInit (run (initC N) cs) q → p = q)) ∧
    ((run (initC N) (c1sched (N - 1))).tasks = List.replicate (N + 1) (.fin .ok) ∧
     startCount (run (initC N) (c1sched (N - 1))) = 1) := by
  obtain ⟨M, rfl⟩ : ∃ M, N = M + 1 := ⟨N - 1, (Nat.succ_pred_eq_of_pos hN).symm⟩
  have hinv := C1Inv_run cs (initC (M + 1)) (C1Inv_initC (M + 1)) hok
  obtain ⟨hshape, hcount, huniq, hsome, hwait, hdo, hres⟩ := hinv
  refine ⟨⟨?_, huniq, ?_⟩, ?_, ?_⟩
  · rw [hcount]
    split <;> omega
  · intro p q hp hq
    have h1 := hwait p hp
    have h2 := hwait q hq
    rw [h1] at h2
    injection h2
  · simp only [Nat.add_sub_cancel]
    rw [c1sched_completes M]
  · simp only [Nat.add_sub_cancel]
    rw [c1sched_completes M]
    rfl

theorem initialize_single_flight_witness :
    (startCount (run (initC 2) (c1sched 1)) ≤ 1 ∧
     (∀ a b, doInitAt (run (initC 2) (c1sched 1)) a →
        doInitAt (run (initC 2) (c1sched 1)) b → a = b) ∧
     (∀ p q, waitsInit (run (initC 2) (c1sched 1)) p →
        waitsInit (run (initC 2) (c1sched 1)) q → p = q)) ∧
    ((run (initC 2) (c1sched (2 - 1))).tasks = List.replicate (2 + 1) (.fin .ok) ∧
     startCount (run (initC 2) (c1sched (2 - 1))) = 1) :=
  initialize_single_flight 2 (by decide) (c1sched 1) (by decide)


end SWEmbed
